import Mathlib

/-!
Verification of the MOSFiT core sample: the `Parameter` module
(src/mosfit/modules/parameters/parameter.py) and the `Blackbody` SED module
(src/mosfit/modules/seds/blackbody.py), shallowly embedded over `ℝ`.

Python `None`-able float attributes become `Option ℝ`; the printer collaborator
is out of scope, so warning emission is recorded as data (a `Bool`) where a
claim depends on it. The numexpr evaluation backend is, per the spec, an
opaque vectorized-expression evaluator operating on IEEE doubles; it is
abstracted as a function returning a `FloatVal` (a finite real, an infinity,
or NaN), and the numpy sanitizer `nan_to_num` is embedded from numpy's
documented semantics.
-/

namespace MOSFiT

open Classical

/-- The attribute state of a `Parameter` instance after `__init__`:
`_name`, `_min_value`, `_max_value`, `_value`, `_log`, `_reference_value`,
`_clipped_warning`. The cosmetic/introspective attributes `_latex` and
`_derived_keys` are read by no operation modelled here and are omitted. -/
structure ParamState where
  name : String
  min_value : Option ℝ
  max_value : Option ℝ
  value : Option ℝ
  log : Bool
  reference_value : Option ℝ
  clipped_warning : Bool

/-- `np.clip(x, lo, hi)`: `lo` if `x < lo`, `hi` if `x > hi`, else `x`
(equivalently `min (max x lo) hi`). -/
noncomputable def np_clip (x lo hi : ℝ) : ℝ := min (max x lo) hi

/-- Embeds `Parameter.__init__` restricted to the kwargs the class reads:
`min_value`, `max_value`, `value` (each `None` when absent) and `log`
(default `False`). A raised `ValueError` becomes `Except.error`.

Source control flow, in order:
1. `self._max_value` / `self._min_value` are read from kwargs;
2. if both bounds are present and equal, a `min_max_same` warning is printed,
   `self._value` is set to `self._min_value`, and both bounds are set to
   `None`.  That write to `self._value` is dead: the next statement,
   `self._value = kwargs.get('value', None)`, unconditionally overwrites it;
3. if `self._log` and both (surviving) bounds are present: raise `ValueError`
   when either bound is `<= 0`, else replace the bounds by their natural logs;
4. `self._reference_value = None`, `self._clipped_warning = False`. -/
noncomputable def Parameter.init (name : String) (kw_min kw_max kw_value : Option ℝ)
    (kw_log : Bool) : Except String ParamState :=
  let degenerate : Prop := kw_min ≠ none ∧ kw_max ≠ none ∧ kw_min = kw_max
  -- the degenerate branch also assigns `self._value := self._min_value`,
  -- but that assignment is overwritten by line 24 before it can be observed
  let min1 : Option ℝ := if degenerate then none else kw_min
  let max1 : Option ℝ := if degenerate then none else kw_max
  let value1 : Option ℝ := kw_value
  match min1, max1 with
  | some a, some b =>
    if kw_log then
      if a ≤ 0 ∨ b ≤ 0 then
        Except.error "Parameter with log prior cannot have range values <= 0!"
      else
        Except.ok ⟨name, some (Real.log a), some (Real.log b), value1, kw_log, none, false⟩
    else
      Except.ok ⟨name, some a, some b, value1, kw_log, none, false⟩
  | mn, mx => Except.ok ⟨name, mn, mx, value1, kw_log, none, false⟩

/-- Embeds `Parameter.value(f)`:
`np.clip(f * (self._max_value - self._min_value) + self._min_value,
self._min_value, self._max_value)`, exponentiated when `self._log`.
The method is only reached with both bounds present (guarded in `process`);
a `None` bound would be a Python `TypeError`, so the `Option` is projected
with `Option.getD`. -/
noncomputable def Parameter.value (p : ParamState) (f : ℝ) : ℝ :=
  let value := np_clip (f * (p.max_value.getD 0 - p.min_value.getD 0) + p.min_value.getD 0)
    (p.min_value.getD 0) (p.max_value.getD 0)
  if p.log then Real.exp value else value

/-- The unclipped fraction computed by `Parameter.fraction`:
log-transform the argument when `self._log`, then
`(value - self._min_value) / (self._max_value - self._min_value)`. -/
noncomputable def Parameter.fractionRaw (p : ParamState) (value : ℝ) : ℝ :=
  let value1 := if p.log then Real.log value else value
  (value1 - p.min_value.getD 0) / (p.max_value.getD 0 - p.min_value.getD 0)

/-- Result of one `Parameter.fraction` call: the returned fraction, the
instance state after the call, and whether the `parameter_clipped` warning
was printed during the call. -/
structure FracResult where
  f : ℝ
  state : ParamState
  warned : Bool

/-- Holds when clipping the raw fraction of `value` to [0,1] actually changes
it — the `f != of` test inside `Parameter.fraction`. -/
noncomputable def clipChanges (p : ParamState) (value : ℝ) : Prop :=
  np_clip (Parameter.fractionRaw p value) 0 1 ≠ Parameter.fractionRaw p value

/-- Embeds `Parameter.fraction(value, clip)`.  With `clip` the fraction is
clipped to [0,1]; when that changes the value and `self._clipped_warning` is
not yet set, the flag is set and the `parameter_clipped` warning printed. -/
noncomputable def Parameter.fraction (p : ParamState) (value : ℝ) (clip : Bool) : FracResult :=
  let f := Parameter.fractionRaw p value
  match clip with
  | true =>
    let f1 := np_clip f 0 1
    if f1 ≠ f ∧ p.clipped_warning = false then
      ⟨f1, { p with clipped_warning := true }, true⟩
    else
      ⟨f1, p, false⟩
  | false => ⟨f, p, false⟩

/-- Embeds `Parameter.process(**kwargs)`.  The kwargs mapping enters as the
list of its keys (only membership of `self._name` is tested) together with
the value of `kwargs['fraction']`.  The returned `OrderedDict` becomes an
ordered association list; the value bound to the parameter's name is an
`Option ℝ` because `self._value` may be `None`. -/
noncomputable def Parameter.process (p : ParamState) (kwargKeys : List String)
    (fraction : ℝ) : List (String × Option ℝ) :=
  if p.name ∈ kwargKeys ∨ p.min_value = none ∨ p.max_value = none then
    if p.name ∈ kwargKeys then
      []
    else
      (p.name, p.value) ::
        (if p.reference_value ≠ none then [("reference_" ++ p.name, p.reference_value)] else [])
  else
    (p.name, some (Parameter.value p fraction)) ::
      (if p.reference_value ≠ none then [("reference_" ++ p.name, p.reference_value)] else [])

/-- Embeds `Parameter.receive_requests(**requests)`: when the request mapping
is non-empty, `self._reference_value := requests.get(req_keys[0], None)` where
`req_keys[0]` is the first key in insertion order.  The kwargs dict becomes an
ordered association list with pairwise-distinct keys; `requests.get` is the
first association of that key. -/
noncomputable def Parameter.receive_requests (p : ParamState)
    (requests : List (String × ℝ)) : ParamState :=
  match requests.map Prod.fst with
  | [] => p
  | k :: _ =>
    { p with reference_value := (requests.find? (fun kv => kv.1 == k)).map Prod.snd }

/-- A sequence of `fraction(value, clip=True)` calls on one instance,
threading the instance state; returns each call's `(fraction, warned)`. -/
noncomputable def fractionCalls (p : ParamState) : List ℝ → List (ℝ × Bool)
  | [] => []
  | v :: vs =>
    let r := Parameter.fraction p v true
    (r.f, r.warned) :: fractionCalls r.state vs

/-- One epoch's slice of the parallel kwargs arrays consumed by
`Blackbody.process`: `luminosities[li]`, `radiusphot[li]`,
`temperaturephot[li]`, `all_band_indices[li]`, `all_frequencies[li]`. -/
structure Epoch where
  lum : ℝ
  radius : ℝ
  temp : ℝ
  bi : ℤ
  freq : ℝ

/-- The value of one element produced by the opaque vectorized expression
evaluator on IEEE doubles: a finite real, an infinity, or NaN. -/
inductive FloatVal where
  | finite (x : ℝ)
  | posinf
  | neginf
  | nan

/-- The largest finite IEEE double, `np.finfo(np.float64).max`:
1.7976931348623157e308. -/
noncomputable def FLOAT_MAX : ℝ := 17976931348623157 * 10 ^ 292

/-- `np.nan_to_num` with its default arguments: NaN becomes `0.0`, `inf`
becomes the largest finite double and `-inf` its negation; finite values pass
through unchanged. -/
noncomputable def nan_to_num : FloatVal → ℝ
  | .finite x => x
  | .posinf => FLOAT_MAX
  | .neginf => -FLOAT_MAX
  | .nan => 0

/-- `Blackbody.C_CONST = c.c.cgs.value`, the speed of light in cm/s. -/
noncomputable def C_CONST : ℝ := 29979245800

/-- `u.Angstrom.cgs.scale`: one Angstrom in cm. -/
noncomputable def ANGSTROM_CGS : ℝ := 1 / 10 ^ 8

/-- The rest-frame wavelengths of one epoch (`rest_wavs` in the loop body):
the band's sample wavelength grid converted to cm and divided by `zp1` when
`bi >= 0`, else the single wavelength `cc / (frequencies[li] * zp1)`. -/
noncomputable def Blackbody.restWavs (cc zp1 : ℝ) (sample_wavelengths : List (List ℝ))
    (e : Epoch) : List ℝ :=
  if 0 ≤ e.bi then
    (sample_wavelengths.getD e.bi.toNat []).map (fun w => w * ANGSTROM_CGS / zp1)
  else
    [cc / (e.freq * zp1)]

/-- The exception raised by `sed *= rest_wavs**2 / cc` on the `bi < 0`
branch: there `rest_wavs` is a plain Python list (never converted to a numpy
array), and `list ** int` is unsupported. -/
def listPowTypeError : String :=
  "TypeError: unsupported operand type(s) for ** or pow(): list and int"

/-- The loop body of `Blackbody.process` for one epoch.  `planck r t w` is
the opaque evaluator's result for
`fc * radius_phot**2 / rest_wavs**5 / (exp(xc / rest_wavs / temperature_phot) - 1.0)`
at `radius_phot = r`, `temperature_phot = t`, one `rest_wavs` element `w`
(`ne.evaluate` coerces its operands with `numpy.asarray`, so a list
`rest_wavs` is accepted here, and `ne.re_evaluate` on later epochs re-runs
the same compiled expression on the current operands, so every epoch
evaluates the same function).  Zero luminosity short-circuits to an all-zero
spectrum (`np.zeros_like(self._sample_wavelengths[bi])`, or `[0.0]` when
`bi < 0`); otherwise the evaluator output is passed through `np.nan_to_num`
and then, when `bi < 0`, the statement `sed *= rest_wavs**2 / cc` raises
`TypeError` — on that branch `rest_wavs` is still a plain Python list and
`list ** int` is unsupported — so the intended per-frequency rescale (the
`# if radio, convert to F_nu` comment) never executes and the epoch emits
nothing. -/
noncomputable def Blackbody.epochSed (planck : ℝ → ℝ → ℝ → FloatVal) (cc zp1 : ℝ)
    (sample_wavelengths : List (List ℝ)) (e : Epoch) : Except String (List ℝ) :=
  if e.lum = 0 then
    if 0 ≤ e.bi then
      Except.ok (List.replicate (sample_wavelengths.getD e.bi.toNat []).length 0)
    else
      Except.ok [0]
  else
    let rest_wavs := Blackbody.restWavs cc zp1 sample_wavelengths e
    let sed := rest_wavs.map (fun w => nan_to_num (planck e.radius e.temp w))
    if e.bi < 0 then
      Except.error listPowTypeError
    else
      Except.ok sed

/-- The epoch loop of `Blackbody.process`: spectra are appended in epoch
order, and an exception raised in the loop body propagates immediately,
aborting the whole call (later epochs are not evaluated and nothing is
returned). -/
noncomputable def Blackbody.processSeds (planck : ℝ → ℝ → ℝ → FloatVal) (cc zp1 : ℝ)
    (sample_wavelengths : List (List ℝ)) : List Epoch → Except String (List (List ℝ))
  | [] => Except.ok []
  | e :: es =>
    match Blackbody.epochSed planck cc zp1 sample_wavelengths e with
    | Except.error msg => Except.error msg
    | Except.ok sed =>
      match Blackbody.processSeds planck cc zp1 sample_wavelengths es with
      | Except.error msg => Except.error msg
      | Except.ok rest => Except.ok (sed :: rest)

/-- Embeds `Blackbody.process`: `zp1 = 1.0 + redshift`, then the epoch loop.
The merge of pre-existing SED contributions (`add_to_existing_seds`, defined
in the `SED` base class which is not part of this sample) and the echoed
`sample_wavelengths` key of the returned dict are outside this embedding. -/
noncomputable def Blackbody.process (planck : ℝ → ℝ → ℝ → FloatVal) (redshift : ℝ)
    (sample_wavelengths : List (List ℝ)) (epochs : List Epoch) :
    Except String (List (List ℝ)) :=
  let zp1 := 1 + redshift
  Blackbody.processSeds planck C_CONST zp1 sample_wavelengths epochs

/-- For a band-indexed epoch with nonzero luminosity, the epoch spectrum is
the sanitized evaluator output over the de-redshifted band grid, with no
per-frequency rescaling. -/
theorem Blackbody.epochSed_band (planck : ℝ → ℝ → ℝ → FloatVal) (cc zp1 : ℝ)
    (swl : List (List ℝ)) (e : Epoch) (hl : e.lum ≠ 0) (hbi : 0 ≤ e.bi) :
    Blackbody.epochSed planck cc zp1 swl e =
      Except.ok (((swl.getD e.bi.toNat []).map (fun w => w * ANGSTROM_CGS / zp1)).map
        (fun w => nan_to_num (planck e.radius e.temp w))) := by
  simp [Blackbody.epochSed, Blackbody.restWavs, hl, hbi, not_lt.mpr hbi]

/-- For a frequency-indexed epoch with nonzero luminosity, the loop body
raises: `sed *= rest_wavs**2 / cc` applies `**` to a plain Python list. -/
theorem Blackbody.epochSed_radio (planck : ℝ → ℝ → ℝ → FloatVal) (cc zp1 : ℝ)
    (swl : List (List ℝ)) (e : Epoch) (hl : e.lum ≠ 0) (hbi : e.bi < 0) :
    Blackbody.epochSed planck cc zp1 swl e = Except.error listPowTypeError := by
  simp [Blackbody.epochSed, hl, hbi]

/-- C1: constructing a `Parameter` with `min_value = max_value = 3` and no
`value` kwarg clears the bounds but leaves `_value = None`, not `3`: the
degenerate branch's write of `self._value = self._min_value` is dead because
`self._value = kwargs.get('value', None)` runs unconditionally right after
it, so `process` then returns `{name: None}` instead of `{name: 3}`. -/
theorem C1_degenerate_value_overwritten :
    Parameter.init "p" (some 3) (some 3) none false
      = Except.ok ⟨"p", none, none, none, false, none, false⟩
    ∧ Parameter.process ⟨"p", none, none, none, false, none, false⟩ [] 0 = [("p", none)] := by
  constructor
  · simp [Parameter.init]
  · simp [Parameter.process]

/-- C3 counterexample: with `log=True` and both bounds present and equal to
`-1` — non-positive — construction does not raise: the degenerate-range
branch clears the bounds before the log-prior validation runs, so `__init__`
returns normally. -/
theorem C3_counterexample :
    Parameter.init "p" (some (-1)) (some (-1)) none true
      = Except.ok ⟨"p", none, none, none, true, none, false⟩ := by
  simp [Parameter.init]

/-- C3 (amended): construction raises exactly when `log` is set, both bounds
are present and distinct, and either bound is `<= 0`; equal bounds are
cleared by the degenerate-range correction before the validation, and every
other modelled `Parameter` operation is a total function (no raise). -/
theorem C3_log_prior_validation (nm : String) (mn mx v : Option ℝ) (lg : Bool) :
    (∃ e, Parameter.init nm mn mx v lg = Except.error e) ↔
      (lg = true ∧ ∃ a b : ℝ, mn = some a ∧ mx = some b ∧ a ≠ b ∧ (a ≤ 0 ∨ b ≤ 0)) := by
  cases mn with
  | none => simp [Parameter.init]
  | some a =>
    cases mx with
    | none => simp [Parameter.init]
    | some b =>
      by_cases hab : a = b
      · subst hab
        simp [Parameter.init]
      · cases lg with
        | false => simp [Parameter.init, hab]
        | true =>
          by_cases hle : a ≤ 0 ∨ b ≤ 0
          · simp [Parameter.init, hab, hle]
          · simp [Parameter.init, hab, hle]

/-- C8: in `Blackbody.process`, an epoch with zero luminosity short-circuits
to an all-zero spectrum — of the band grid's length when the band index is
non-negative, the single-element `[0.0]` when frequency-indexed — and the
Planck evaluation is skipped (the epoch's spectrum does not depend on the
evaluator at all). -/
theorem C8_zero_luminosity_short_circuit (planck : ℝ → ℝ → ℝ → FloatVal)
    (redshift : ℝ) (swl : List (List ℝ)) (epochs : List Epoch) :
    Blackbody.process planck redshift swl epochs
      = Blackbody.processSeds planck C_CONST (1 + redshift) swl epochs
    ∧ ∀ e : Epoch, e.lum = 0 →
        (0 ≤ e.bi →
          Blackbody.epochSed planck C_CONST (1 + redshift) swl e
            = Except.ok (List.replicate (swl.getD e.bi.toNat []).length 0))
        ∧ (e.bi < 0 →
          Blackbody.epochSed planck C_CONST (1 + redshift) swl e = Except.ok [0])
        ∧ ∀ planck' : ℝ → ℝ → ℝ → FloatVal,
            Blackbody.epochSed planck' C_CONST (1 + redshift) swl e
              = Blackbody.epochSed planck C_CONST (1 + redshift) swl e := by
  refine ⟨rfl, fun e hl => ⟨fun hbi => ?_, fun hbi => ?_, fun planck' => ?_⟩⟩
  · simp [Blackbody.epochSed, hl, hbi]
  · simp [Blackbody.epochSed, hl, not_le.mpr hbi]
  · simp [Blackbody.epochSed, hl]

/-- C8 witness: a zero-luminosity band-indexed epoch over the grid
`[4000, 5000, 6000]` yields three zeros, for any evaluator. -/
theorem C8_zero_luminosity_short_circuit_witness :
    (Epoch.mk 0 1 1 0 0).lum = 0 ∧ (0 : ℤ) ≤ (Epoch.mk 0 1 1 0 0).bi ∧
    Blackbody.epochSed (fun _ _ _ => FloatVal.nan) C_CONST (1 + 0)
        [[4000, 5000, 6000]] (Epoch.mk 0 1 1 0 0)
      = Except.ok
          (List.replicate (([[(4000 : ℝ), 5000, 6000]].getD ((0 : ℤ)).toNat []).length) 0) :=
  ⟨rfl, by decide,
    ((C8_zero_luminosity_short_circuit (fun _ _ _ => FloatVal.nan) 0
      [[4000, 5000, 6000]] []).2 (Epoch.mk 0 1 1 0 0) rfl).1 (by decide)⟩

/-- C9: the claimed per-frequency rescale is the code's documented intent
(`# if radio, convert to F_nu`), but for every frequency-indexed epoch with
nonzero luminosity the statement `sed *= rest_wavs**2 / cc` raises
`TypeError` — `rest_wavs` is a plain Python list on that branch — so the
rescaled flux is never computed and the whole `process` call aborts.  The
rest wavelength fed to the evaluator before the crash is indeed
`c / (freq · (1 + z))`. -/
theorem C9_radio_rescale_raises (planck : ℝ → ℝ → ℝ → FloatVal)
    (redshift : ℝ) (swl : List (List ℝ)) (e : Epoch)
    (hl : e.lum ≠ 0) (hbi : e.bi < 0) :
    Blackbody.restWavs C_CONST (1 + redshift) swl e
      = [C_CONST / (e.freq * (1 + redshift))]
    ∧ Blackbody.epochSed planck C_CONST (1 + redshift) swl e
      = Except.error listPowTypeError
    ∧ Blackbody.process planck redshift swl [e] = Except.error listPowTypeError := by
  refine ⟨?_, Blackbody.epochSed_radio planck C_CONST (1 + redshift) swl e hl hbi, ?_⟩
  · simp [Blackbody.restWavs, not_le.mpr hbi]
  · show Blackbody.processSeds planck C_CONST (1 + redshift) swl [e] = _
    rw [Blackbody.processSeds,
      Blackbody.epochSed_radio planck C_CONST (1 + redshift) swl e hl hbi]

/-- C9 witness: a frequency-indexed epoch (`bi = -1`) with unit luminosity,
frequency 1 and redshift 0 makes the whole `process` call raise the
list-power `TypeError`. -/
theorem C9_radio_rescale_raises_witness :
    (Epoch.mk 1 1 1 (-1) 1).lum ≠ 0 ∧ (Epoch.mk 1 1 1 (-1) 1).bi < 0 ∧
    Blackbody.process (fun _ _ _ => FloatVal.finite 2) 0 [] [Epoch.mk 1 1 1 (-1) 1]
      = Except.error listPowTypeError :=
  ⟨by norm_num, by decide,
    (C9_radio_rescale_raises (fun _ _ _ => FloatVal.finite 2) 0 []
      (Epoch.mk 1 1 1 (-1) 1) (by norm_num) (by decide)).2.2⟩

/-- C2 counterexample: if the evaluator yields `+inf` for a band-indexed
epoch, the emitted element is `np.nan_to_num`'s large finite sentinel
(`1.7976931348623157e308`), not `0`, so "any NaN or Inf … is replaced by 0"
fails on the Inf half. -/
theorem C2_counterexample :
    Blackbody.process (fun _ _ _ => FloatVal.posinf) 0 [[1]] [Epoch.mk 1 1 1 0 0]
      = Except.ok [[FLOAT_MAX]] ∧ FLOAT_MAX ≠ 0 := by
  constructor
  · simp [Blackbody.process, Blackbody.processSeds, Blackbody.epochSed,
      Blackbody.restWavs, nan_to_num]
  · norm_num [FLOAT_MAX]

/-- C2 (amended): for every band-indexed epoch with nonzero luminosity,
every element of the emitted spectrum is the `np.nan_to_num`-sanitized
evaluator output at one of the epoch's rest wavelengths, where the sanitizer
maps NaN to `0` and `±inf` to the largest-magnitude finite doubles
`±1.7976931348623157e308` — so every element the call emits is a finite
real; a frequency-indexed epoch with nonzero luminosity emits nothing, since
the loop body raises `TypeError` at the per-frequency rescale. -/
theorem C2_nan_inf_sanitized (planck : ℝ → ℝ → ℝ → FloatVal)
    (redshift : ℝ) (swl : List (List ℝ)) (epochs : List Epoch) :
    Blackbody.process planck redshift swl epochs
      = Blackbody.processSeds planck C_CONST (1 + redshift) swl epochs
    ∧ nan_to_num FloatVal.nan = 0
    ∧ nan_to_num FloatVal.posinf = FLOAT_MAX
    ∧ nan_to_num FloatVal.neginf = -FLOAT_MAX
    ∧ (∀ e : Epoch, e.lum ≠ 0 → 0 ≤ e.bi →
        ∀ l : List ℝ,
          Blackbody.epochSed planck C_CONST (1 + redshift) swl e = Except.ok l →
          ∀ x ∈ l, ∃ w ∈ Blackbody.restWavs C_CONST (1 + redshift) swl e,
            x = nan_to_num (planck e.radius e.temp w))
    ∧ (∀ e : Epoch, e.lum ≠ 0 → e.bi < 0 →
        Blackbody.epochSed planck C_CONST (1 + redshift) swl e
          = Except.error listPowTypeError) := by
  refine ⟨rfl, rfl, rfl, rfl, fun e hl hbi l hok x hx => ?_, fun e hl hbi =>
    Blackbody.epochSed_radio planck C_CONST (1 + redshift) swl e hl hbi⟩
  rw [Blackbody.epochSed_band planck C_CONST (1 + redshift) swl e hl hbi] at hok
  obtain rfl : _ = l := Except.ok.inj hok
  obtain ⟨w, hw, rfl⟩ := List.mem_map.1 hx
  refine ⟨w, ?_, rfl⟩
  simpa [Blackbody.restWavs, hbi] using hw

/-- C2 witness: with an evaluator that yields NaN everywhere, the single
emitted element of a band-indexed epoch is `0`, and it is the sanitized
evaluator output at the epoch's one rest wavelength. -/
theorem C2_nan_inf_sanitized_witness :
    (Epoch.mk 1 1 1 0 0).lum ≠ 0 ∧ (0 : ℤ) ≤ (Epoch.mk 1 1 1 0 0).bi ∧
    Blackbody.epochSed (fun _ _ _ => FloatVal.nan) C_CONST (1 + 0)
        [[1]] (Epoch.mk 1 1 1 0 0) = Except.ok [0] ∧
    (0 : ℝ) ∈ ([0] : List ℝ) ∧
    ∃ w ∈ Blackbody.restWavs C_CONST (1 + 0) [[1]] (Epoch.mk 1 1 1 0 0),
      (0 : ℝ) = nan_to_num ((fun _ _ _ => FloatVal.nan) (1 : ℝ) (1 : ℝ) w) :=
  ⟨by norm_num, by decide,
   by simp [Blackbody.epochSed, Blackbody.restWavs, nan_to_num],
   by simp,
   (C2_nan_inf_sanitized (fun _ _ _ => FloatVal.nan) 0 [[1]]
      [Epoch.mk 1 1 1 0 0]).2.2.2.2.1 (Epoch.mk 1 1 1 0 0) (by norm_num) (by decide)
      [0] (by simp [Blackbody.epochSed, Blackbody.restWavs, nan_to_num]) 0 (by simp)⟩

/-- C4: with stored bounds `a ≤ b`, `value(f)` is
`clip(f·(b−a)+a, a, b)`, exponentiated when `log` is set; the clipped
quantity always lies in `[a, b]`, so a non-log parameter's value lies within
its bounds, and a log parameter whose stored bounds are the natural logs of
physical bounds `0 < pa`, `0 < pb` yields a value within `[pa, pb]`. -/
theorem C4_value_contract (nm : String) (a b f : ℝ) (lg : Bool) (v rv : Option ℝ)
    (cw : Bool) (hab : a ≤ b) :
    (Parameter.value ⟨nm, some a, some b, v, lg, rv, cw⟩ f
      = if lg then Real.exp (np_clip (f * (b - a) + a) a b)
        else np_clip (f * (b - a) + a) a b)
    ∧ a ≤ np_clip (f * (b - a) + a) a b
    ∧ np_clip (f * (b - a) + a) a b ≤ b
    ∧ (a ≤ Parameter.value ⟨nm, some a, some b, v, false, rv, cw⟩ f
        ∧ Parameter.value ⟨nm, some a, some b, v, false, rv, cw⟩ f ≤ b)
    ∧ (∀ pa pb : ℝ, 0 < pa → 0 < pb → a = Real.log pa → b = Real.log pb →
        pa ≤ Parameter.value ⟨nm, some a, some b, v, true, rv, cw⟩ f
        ∧ Parameter.value ⟨nm, some a, some b, v, true, rv, cw⟩ f ≤ pb) := by
  have hlo : a ≤ np_clip (f * (b - a) + a) a b := le_min (le_max_right _ _) hab
  have hhi : np_clip (f * (b - a) + a) a b ≤ b := min_le_right _ _
  have hfalse : Parameter.value ⟨nm, some a, some b, v, false, rv, cw⟩ f
      = np_clip (f * (b - a) + a) a b := by
    simp [Parameter.value, np_clip]
  have htrue : Parameter.value ⟨nm, some a, some b, v, true, rv, cw⟩ f
      = Real.exp (np_clip (f * (b - a) + a) a b) := by
    simp [Parameter.value, np_clip]
  refine ⟨?_, hlo, hhi, ?_, ?_⟩
  · cases lg
    · simpa using hfalse
    · simpa using htrue
  · rw [hfalse]
    exact ⟨hlo, hhi⟩
  · intro pa pb hpa hpb ha hb
    rw [htrue]
    constructor
    · have h1 : Real.log pa ≤ np_clip (f * (b - a) + a) a b := by
        rw [← ha]; exact hlo
      calc pa = Real.exp (Real.log pa) := (Real.exp_log hpa).symm
        _ ≤ _ := Real.exp_le_exp.mpr h1
    · have h2 : np_clip (f * (b - a) + a) a b ≤ Real.log pb := by
        rw [← hb]; exact hhi
      calc Real.exp (np_clip (f * (b - a) + a) a b)
          ≤ Real.exp (Real.log pb) := Real.exp_le_exp.mpr h2
        _ = pb := Real.exp_log hpb

/-- C4 witness: a non-log parameter with bounds `[0, 1]` at fraction `1/2`. -/
theorem C4_value_contract_witness :
    (0 : ℝ) ≤ 1 ∧
    ((Parameter.value ⟨"p", some 0, some 1, none, false, none, false⟩ (1 / 2)
      = if false then Real.exp (np_clip ((1 / 2 : ℝ) * (1 - 0) + 0) 0 1)
        else np_clip ((1 / 2 : ℝ) * (1 - 0) + 0) 0 1)
    ∧ (0 : ℝ) ≤ np_clip ((1 / 2 : ℝ) * (1 - 0) + 0) 0 1
    ∧ np_clip ((1 / 2 : ℝ) * (1 - 0) + 0) 0 1 ≤ 1
    ∧ ((0 : ℝ) ≤ Parameter.value ⟨"p", some 0, some 1, none, false, none, false⟩ (1 / 2)
        ∧ Parameter.value ⟨"p", some 0, some 1, none, false, none, false⟩ (1 / 2) ≤ 1)
    ∧ (∀ pa pb : ℝ, 0 < pa → 0 < pb → (0 : ℝ) = Real.log pa → (1 : ℝ) = Real.log pb →
        pa ≤ Parameter.value ⟨"p", some 0, some 1, none, true, none, false⟩ (1 / 2)
        ∧ Parameter.value ⟨"p", some 0, some 1, none, true, none, false⟩ (1 / 2) ≤ pb)) :=
  ⟨by norm_num, C4_value_contract "p" 0 1 (1 / 2) false none none false (by norm_num)⟩

/-- C5: with stored bounds `A < B` and `f ∈ [0, 1]`,
`fraction(value(f), clip=False)` returns exactly `f`, for any `log` flag —
the log case first applies `np.log`, undoing the `np.exp` in `value`. -/
theorem C5_round_trip (nm : String) (A B f : ℝ) (v rv : Option ℝ) (lg cw : Bool)
    (hAB : A < B) (hf0 : 0 ≤ f) (hf1 : f ≤ 1) :
    (Parameter.fraction ⟨nm, some A, some B, v, lg, rv, cw⟩
        (Parameter.value ⟨nm, some A, some B, v, lg, rv, cw⟩ f) false).f = f := by
  have hBA : (0 : ℝ) < B - A := sub_pos.mpr hAB
  have hlow : A ≤ f * (B - A) + A := le_add_of_nonneg_left (mul_nonneg hf0 hBA.le)
  have hhigh : f * (B - A) + A ≤ B := by nlinarith
  have hX : np_clip (f * (B - A) + A) A B = f * (B - A) + A := by
    unfold np_clip
    rw [max_eq_left hlow, min_eq_left hhigh]
  cases lg with
  | false =>
    simp only [Parameter.fraction, Parameter.fractionRaw, Parameter.value]
    simp [hX]
    field_simp
  | true =>
    simp only [Parameter.fraction, Parameter.fractionRaw, Parameter.value]
    simp [hX, Real.log_exp]
    field_simp

/-- C5 witness: a log parameter with stored bounds `[0, 1]` at `f = 1/2`
round-trips through `value` and unclipped `fraction`. -/
theorem C5_round_trip_witness :
    (0 : ℝ) < 1 ∧ (0 : ℝ) ≤ 1 / 2 ∧ (1 / 2 : ℝ) ≤ 1 ∧
    (Parameter.fraction ⟨"p", some 0, some 1, none, true, none, false⟩
        (Parameter.value ⟨"p", some 0, some 1, none, true, none, false⟩ (1 / 2)) false).f
      = 1 / 2 :=
  ⟨by norm_num, by norm_num, by norm_num,
    C5_round_trip "p" 0 1 (1 / 2) none none true false (by norm_num) (by norm_num)
      (by norm_num)⟩

/-- C6: `process` returns `{}` when the parameter's name is already a kwargs
key; otherwise an ordered mapping headed by the name — bound to the fixed
`_value` when either bound is `None`, to `value(kwargs['fraction'])` when
both are present — with `reference_<name>` appended as the second (and last)
entry exactly when a reference value has been received. -/
theorem C6_process_contract (p : ParamState) (keys : List String) (fr : ℝ) :
    (p.name ∈ keys → Parameter.process p keys fr = [])
    ∧ (p.name ∉ keys → (p.min_value = none ∨ p.max_value = none) →
        Parameter.process p keys fr
          = (p.name, p.value) ::
            (if p.reference_value ≠ none
              then [("reference_" ++ p.name, p.reference_value)] else []))
    ∧ (p.name ∉ keys → p.min_value ≠ none → p.max_value ≠ none →
        Parameter.process p keys fr
          = (p.name, some (Parameter.value p fr)) ::
            (if p.reference_value ≠ none
              then [("reference_" ++ p.name, p.reference_value)] else []))
    ∧ (∀ r : ℝ, p.reference_value = some r →
        (if p.reference_value ≠ none
          then [("reference_" ++ p.name, p.reference_value)] else [])
          = [("reference_" ++ p.name, some r)])
    ∧ (p.reference_value = none →
        (if p.reference_value ≠ none
          then [("reference_" ++ p.name, p.reference_value)] else []) = []) := by
  refine ⟨fun h => ?_, fun h hmn => ?_, fun h h1 h2 => ?_, fun r hr => ?_, fun hr => ?_⟩
  · simp [Parameter.process, h]
  · rcases hmn with h1 | h1 <;> simp [Parameter.process, h, h1]
  · simp [Parameter.process, h, h1, h2]
  · simp [hr]
  · simp [hr]

/-- C6 witness: a fixed parameter (no bounds) whose name is not among the
kwargs keys and which received the reference value `7` outputs its fixed
value then the reference entry. -/
theorem C6_process_contract_witness :
    ("p" ∉ (["q"] : List String)) ∧
    Parameter.process ⟨"p", none, none, some 5, false, some 7, false⟩ ["q"] 0
      = ("p", some 5) ::
        (if (some (7 : ℝ)) ≠ none then [("reference_" ++ "p", some (7 : ℝ))] else []) :=
  ⟨by simp,
    (C6_process_contract ⟨"p", none, none, some 5, false, some 7, false⟩ ["q"] 0).2.1
      (by simp) (Or.inl rfl)⟩

/-- `process` on a parameter whose name is not among the kwargs keys always
emits the name entry first; its tail is exactly the reference entry when a
reference value is held, empty otherwise. -/
theorem Parameter.process_tail (q : ParamState) (keys : List String) (fr : ℝ)
    (h : q.name ∉ keys) :
    (Parameter.process q keys fr).tail
      = if q.reference_value ≠ none
          then [("reference_" ++ q.name, q.reference_value)] else [] := by
  unfold Parameter.process
  by_cases hor : q.name ∈ keys ∨ q.min_value = none ∨ q.max_value = none
  · rw [if_pos hor, if_neg h]
    rfl
  · rw [if_neg hor]
    rfl

/-- C7: `receive_requests` with a non-empty mapping stores the first entry's
value as `reference_value`, overwriting any earlier one; after two successive
non-empty calls the state holds only the most recent first value, and the
next `process` call surfaces exactly it under `reference_<name>`. -/
theorem C7_receive_requests (p : ParamState) (k1 k2 : String) (v1 v2 : ℝ)
    (t1 t2 : List (String × ℝ)) :
    (Parameter.receive_requests p ((k1, v1) :: t1)).reference_value = some v1
    ∧ Parameter.receive_requests (Parameter.receive_requests p ((k1, v1) :: t1))
        ((k2, v2) :: t2)
      = { p with reference_value := some v2 }
    ∧ ∀ (keys : List String) (fr : ℝ), p.name ∉ keys →
        (Parameter.process
            (Parameter.receive_requests (Parameter.receive_requests p ((k1, v1) :: t1))
              ((k2, v2) :: t2)) keys fr).tail
          = [("reference_" ++ p.name, some v2)] := by
  have h1 : Parameter.receive_requests p ((k1, v1) :: t1)
      = { p with reference_value := some v1 } := by
    simp [Parameter.receive_requests]
  have h2 : Parameter.receive_requests (Parameter.receive_requests p ((k1, v1) :: t1))
      ((k2, v2) :: t2) = { p with reference_value := some v2 } := by
    rw [h1]
    simp [Parameter.receive_requests]
  refine ⟨by rw [h1], h2, fun keys fr hk => ?_⟩
  rw [h2, Parameter.process_tail { p with reference_value := some v2 } keys fr hk]
  simp

/-- C7 witness: two successive one-entry request maps; `process` then emits
only the second value under `reference_p`. -/
theorem C7_receive_requests_witness :
    ("p" ∉ ([] : List String)) ∧
    (Parameter.process
        (Parameter.receive_requests
          (Parameter.receive_requests ⟨"p", none, none, none, false, none, false⟩
            [("a", (1 : ℝ))]) [("b", (2 : ℝ))]) [] 0).tail
      = [("reference_" ++ "p", some (2 : ℝ))] :=
  ⟨by simp,
    (C7_receive_requests ⟨"p", none, none, none, false, none, false⟩ "a" "b" 1 2 [] []).2.2
      [] 0 (by simp)⟩

/-- Normal form of a clipped `fraction` call. -/
theorem Parameter.fraction_clip_eq (p : ParamState) (v : ℝ) :
    Parameter.fraction p v true =
      if np_clip (Parameter.fractionRaw p v) 0 1 ≠ Parameter.fractionRaw p v
          ∧ p.clipped_warning = false
        then ⟨np_clip (Parameter.fractionRaw p v) 0 1,
          { p with clipped_warning := true }, true⟩
        else ⟨np_clip (Parameter.fractionRaw p v) 0 1, p, false⟩ := rfl

/-- A clipped `fraction` call warns exactly when clipping changes the raw
fraction and the one-shot flag is still unset. -/
theorem Parameter.fraction_warned_iff (p : ParamState) (v : ℝ) :
    (Parameter.fraction p v true).warned = true ↔
      clipChanges p v ∧ p.clipped_warning = false := by
  rw [Parameter.fraction_clip_eq]
  by_cases h : np_clip (Parameter.fractionRaw p v) 0 1 ≠ Parameter.fractionRaw p v
      ∧ p.clipped_warning = false
  · rw [if_pos h]
    exact ⟨fun _ => h, fun _ => rfl⟩
  · rw [if_neg h]
    exact ⟨fun hfalse => absurd hfalse (by simp), fun hcl => absurd hcl h⟩

/-- If a clipped `fraction` call warns, the flag is set in the output state. -/
theorem Parameter.fraction_warned_state (p : ParamState) (v : ℝ)
    (h : (Parameter.fraction p v true).warned = true) :
    ((Parameter.fraction p v true).state).clipped_warning = true := by
  rw [Parameter.fraction_clip_eq] at h ⊢
  by_cases hc : np_clip (Parameter.fractionRaw p v) 0 1 ≠ Parameter.fractionRaw p v
      ∧ p.clipped_warning = false
  · rw [if_pos hc]
  · rw [if_neg hc] at h
    exact absurd h (by simp)

/-- A clipped `fraction` call on an instance whose flag is already set leaves
the state unchanged. -/
theorem Parameter.fraction_state_flag_set (p : ParamState) (v : ℝ)
    (h : p.clipped_warning = true) :
    (Parameter.fraction p v true).state = p := by
  rw [Parameter.fraction_clip_eq,
    if_neg (fun hcond => by rw [hcond.2] at h; simp at h)]

/-- A clipped `fraction` call where clipping does not change the raw fraction
leaves the state unchanged. -/
theorem Parameter.fraction_state_no_change (p : ParamState) (v : ℝ)
    (h : ¬ clipChanges p v) :
    (Parameter.fraction p v true).state = p := by
  rw [Parameter.fraction_clip_eq, if_neg (fun hcond => h hcond.1)]

/-- A clipped `fraction` call that clips with the flag unset sets the flag
and changes nothing else. -/
theorem Parameter.fraction_state_change (p : ParamState) (v : ℝ)
    (hc : clipChanges p v) (hw : p.clipped_warning = false) :
    (Parameter.fraction p v true).state = { p with clipped_warning := true } := by
  rw [Parameter.fraction_clip_eq, if_pos ⟨hc, hw⟩]

/-- Once the one-shot flag is set, no later `fraction(·, clip=True)` call in
a sequence ever warns. -/
theorem fractionCalls_warned_false (vs : List ℝ) :
    ∀ p : ParamState, p.clipped_warning = true →
      ∀ j : ℕ, ((fractionCalls p vs).map Prod.snd).getD j false = false := by
  induction vs with
  | nil =>
    intro p hp j
    simp [fractionCalls]
  | cons v vs ih =>
    intro p hp j
    have hw : (Parameter.fraction p v true).warned = false := by
      rcases Bool.eq_false_or_eq_true (Parameter.fraction p v true).warned with h | h
      · exact absurd ((Parameter.fraction_warned_iff p v).1 h).2 (by simp [hp])
      · exact h
    have hst : (Parameter.fraction p v true).state = p :=
      Parameter.fraction_state_flag_set p v hp
    cases j with
    | zero => simp [fractionCalls, hw]
    | succ j =>
      simp only [fractionCalls, List.map_cons, List.getD_cons_succ, hst]
      exact ih p hp j

/-- In any sequence of clipped `fraction` calls, a warning at position `i`
silences every later position. -/
theorem fractionCalls_at_most_once (vs : List ℝ) :
    ∀ (p : ParamState) (i j : ℕ), i < j →
      ((fractionCalls p vs).map Prod.snd).getD i false = true →
      ((fractionCalls p vs).map Prod.snd).getD j false = false := by
  induction vs with
  | nil =>
    intro p i j hij hi
    simp [fractionCalls] at hi
  | cons v vs ih =>
    intro p i j hij hi
    cases i with
    | zero =>
      have hw : (Parameter.fraction p v true).warned = true := by
        simpa [fractionCalls] using hi
      have hcw : ((Parameter.fraction p v true).state).clipped_warning = true :=
        Parameter.fraction_warned_state p v hw
      cases j with
      | zero => omega
      | succ j =>
        simp only [fractionCalls, List.map_cons, List.getD_cons_succ]
        exact fractionCalls_warned_false vs _ hcw j
    | succ i =>
      cases j with
      | zero => omega
      | succ j =>
        simp only [fractionCalls, List.map_cons, List.getD_cons_succ] at hi ⊢
        exact ih _ i j (by omega) hi

/-- In a sequence of clipped `fraction` calls starting with the flag unset,
position `i` warns exactly when call `i` clips and no earlier call clipped. -/
theorem fractionCalls_first_change (vs : List ℝ) :
    ∀ p : ParamState, p.clipped_warning = false →
      ∀ i : ℕ, i < vs.length →
        (((fractionCalls p vs).map Prod.snd).getD i false = true ↔
          (clipChanges p (vs.getD i 0) ∧ ∀ w ∈ vs.take i, ¬ clipChanges p w)) := by
  induction vs with
  | nil =>
    intro p hp i hi
    exact absurd hi (by simp)
  | cons v vs ih =>
    intro p hp i hi
    cases i with
    | zero =>
      simp only [fractionCalls, List.map_cons, List.getD_cons_zero, List.take_zero,
        List.not_mem_nil, IsEmpty.forall_iff, implies_true, and_true]
      rw [Parameter.fraction_warned_iff]
      simp [hp]
    | succ i =>
      have hi' : i < vs.length := by simpa using hi
      by_cases hc : clipChanges p v
      · have hst : (Parameter.fraction p v true).state = { p with clipped_warning := true } :=
          Parameter.fraction_state_change p v hc hp
        have hfalse : ((fractionCalls p (v :: vs)).map Prod.snd).getD (i + 1) false = false := by
          simp only [fractionCalls, List.map_cons, List.getD_cons_succ, hst]
          exact fractionCalls_warned_false vs _ rfl i
        rw [hfalse]
        constructor
        · intro h
          exact absurd h (by simp)
        · rintro ⟨-, hall⟩
          exact absurd hc (hall v (by simp))
      · have hst : (Parameter.fraction p v true).state = p :=
          Parameter.fraction_state_no_change p v hc
        simp only [fractionCalls, List.map_cons, List.getD_cons_succ, hst,
          List.take_succ_cons, List.mem_cons]
        rw [ih p hp i hi']
        constructor
        · rintro ⟨h1, h2⟩
          refine ⟨h1, fun w hw => ?_⟩
          rcases hw with rfl | hw
          · exact hc
          · exact h2 w hw
        · rintro ⟨h1, h2⟩
          exact ⟨h1, fun w hw => h2 w (Or.inr hw)⟩

/-- C10: over any sequence of `fraction(value, clip=True)` calls on one
instance constructed with the flag unset, the clipping warning fires at most
once — at position `i` exactly when call `i`'s clipping changes the result
and no earlier call's did — and never again afterwards, even if clipping
changes the result again. -/
theorem C10_clip_warning_one_shot (p : ParamState) (vs : List ℝ)
    (hp : p.clipped_warning = false) :
    (∀ i j : ℕ, i < j →
        ((fractionCalls p vs).map Prod.snd).getD i false = true →
        ((fractionCalls p vs).map Prod.snd).getD j false = false)
    ∧ ∀ i : ℕ, i < vs.length →
        (((fractionCalls p vs).map Prod.snd).getD i false = true ↔
          (clipChanges p (vs.getD i 0) ∧ ∀ w ∈ vs.take i, ¬ clipChanges p w)) :=
  ⟨fun i j hij hi => fractionCalls_at_most_once vs p i j hij hi,
    fun i hi => fractionCalls_first_change vs p hp i hi⟩

/-- C10 witness: bounds `[0, 1]` and the call sequence `[2, 3]` — both calls
clip, the warning behaviour is governed by the one-shot characterization. -/
theorem C10_clip_warning_one_shot_witness :
    (ParamState.mk "p" (some 0) (some 1) none false none false).clipped_warning = false ∧
    ((∀ i j : ℕ, i < j →
        ((fractionCalls (ParamState.mk "p" (some 0) (some 1) none false none false)
          [2, 3]).map Prod.snd).getD i false = true →
        ((fractionCalls (ParamState.mk "p" (some 0) (some 1) none false none false)
          [2, 3]).map Prod.snd).getD j false = false)
    ∧ ∀ i : ℕ, i < ([2, 3] : List ℝ).length →
        (((fractionCalls (ParamState.mk "p" (some 0) (some 1) none false none false)
            [2, 3]).map Prod.snd).getD i false = true ↔
          (clipChanges (ParamState.mk "p" (some 0) (some 1) none false none false)
              (([2, 3] : List ℝ).getD i 0)
            ∧ ∀ w ∈ ([2, 3] : List ℝ).take i,
                ¬ clipChanges (ParamState.mk "p" (some 0) (some 1) none false none false) w))) :=
  ⟨rfl, C10_clip_warning_one_shot (ParamState.mk "p" (some 0) (some 1) none false none false)
    [2, 3] rfl⟩

end MOSFiT
